import Mathlib

/-!
Verification of the data-organizer repository (`data_organizer.py`).

The development shallowly embeds the three operations of
`DataOrganizerSuggester` — `suggest_structure`, `create_folder_structure`
and `analyze_existing_data` — together with the static template catalog
`base_structures` and the extension map `file_type_mappings`.

Modelling conventions:
* Python `dict`s that are used as ordered string-keyed mappings become
  ordered association lists (insertion order preserved, as in CPython).
* A folder template value is either a list (a leaf; the code only ever
  recurses into `dict` values) or a nested template, modelled by the
  mutual inductives `Entry` / `Tmpl`.
* Filesystem state is explicit: a record of the set of directories and a
  map from file path to file contents.  `Path.mkdir(parents=True,
  exist_ok=True)` inserts every slash-prefix of the path;
  `Path.exists` checks files and directories.
* Machine floats: `st_size / (1024*1024)` is an exact binary scaling
  (division by 2^20), so sizes in megabytes are modelled as exact
  rationals; `round(x, 2)` is round-half-to-even at two decimals.
* Strings are manipulated at the `List Char` level so that every
  definition reduces; `pyLower` models `str.lower` (ASCII-faithful,
  character-by-character like CPython on the extension strings that occur
  here) and `pathSuffix` models CPython `PurePath.suffix`.
-/

mutual
/-- Value sitting under a folder name in a template: the Python code stores
either a `list` (never recursed into — a leaf) or a nested `dict`. -/
inductive Entry where
  | leaf : Entry
  | nested : Tmpl → Entry
deriving DecidableEq
/-- Ordered folder template: a Python dict from folder name to `Entry`,
kept in insertion order as an association structure. -/
inductive Tmpl where
  | nil : Tmpl
  | cons : String → Entry → Tmpl → Tmpl
deriving DecidableEq
end

/-- Build an ordered template from a list of (folder name, entry) pairs,
mirroring a Python dict literal with its insertion order. -/
def Tmpl.ofList : List (String × Entry) → Tmpl
  | [] => .nil
  | (n, e) :: rest => .cons n e (Tmpl.ofList rest)

/-- Whether a template has no keys at its top level (an empty dict). -/
def Tmpl.isNil : Tmpl → Bool
  | .nil => true
  | .cons _ _ _ => false

mutual
/-- Total number of keys at every nesting level of a template. -/
def Tmpl.nodeCount : Tmpl → Nat
  | .nil => 0
  | .cons _ e rest => 1 + e.nodeCount + rest.nodeCount
/-- Node count of the value under a key: 0 for a leaf. -/
def Entry.nodeCount : Entry → Nat
  | .leaf => 0
  | .nested t => t.nodeCount
end

/-- Source constant `base_structures['by_type']`. -/
def by_type : Tmpl := .ofList [
  ("Documents", .nested (.ofList [
    ("PDFs", .leaf),
    ("Word_Documents", .leaf),
    ("Spreadsheets", .leaf),
    ("Presentations", .leaf),
    ("Text_Files", .leaf),
    ("Archives", .leaf)])),
  ("Media", .nested (.ofList [
    ("Images", .nested (.ofList [
      ("Photos", .leaf),
      ("Screenshots", .leaf),
      ("Graphics", .leaf),
      ("Icons", .leaf)])),
    ("Videos", .nested (.ofList [
      ("Personal", .leaf),
      ("Work", .leaf),
      ("Educational", .leaf)])),
    ("Audio", .nested (.ofList [
      ("Music", .leaf),
      ("Recordings", .leaf),
      ("Podcasts", .leaf)]))])),
  ("Code_and_Development", .nested (.ofList [
    ("Projects", .leaf),
    ("Scripts", .leaf),
    ("Documentation", .leaf),
    ("Resources", .leaf)])),
  ("Data_Files", .nested (.ofList [
    ("Databases", .leaf),
    ("CSV_Files", .leaf),
    ("JSON_Files", .leaf),
    ("XML_Files", .leaf),
    ("Logs", .leaf)])),
  ("Miscellaneous", .nested (.ofList [
    ("Temporary", .leaf),
    ("Unsorted", .leaf),
    ("To_Review", .leaf)]))]

/-- Source constant `base_structures['by_project']`. -/
def by_project : Tmpl := .ofList [
  ("Active_Projects", .nested (.ofList [
    ("Project_A", .nested (.ofList [
      ("Documents", .leaf),
      ("Media", .leaf),
      ("Data", .leaf),
      ("Resources", .leaf)])),
    ("Project_B", .nested (.ofList [
      ("Documents", .leaf),
      ("Media", .leaf),
      ("Data", .leaf),
      ("Resources", .leaf)]))])),
  ("Completed_Projects", .nested (.ofList [
    ("Archive_2024", .leaf),
    ("Archive_2023", .leaf)])),
  ("Templates_and_Resources", .nested (.ofList [
    ("Document_Templates", .leaf),
    ("Media_Assets", .leaf),
    ("Reference_Materials", .leaf)])),
  ("Inbox", .nested (.ofList [
    ("New_Items", .leaf),
    ("To_Categorize", .leaf)]))]

/-- Source constant `base_structures['by_date']`. -/
def by_date : Tmpl := .ofList [
  ("2024", .nested (.ofList [
    ("Q1_Jan_Mar", .nested (.ofList [
      ("January", .leaf),
      ("February", .leaf),
      ("March", .leaf)])),
    ("Q2_Apr_Jun", .nested (.ofList [
      ("April", .leaf),
      ("May", .leaf),
      ("June", .leaf)])),
    ("Q3_Jul_Sep", .nested (.ofList [
      ("July", .leaf),
      ("August", .leaf),
      ("September", .leaf)])),
    ("Q4_Oct_Dec", .nested (.ofList [
      ("October", .leaf),
      ("November", .leaf),
      ("December", .leaf)]))])),
  ("2023", .nested (.ofList [
    ("Archive", .leaf)]))]

/-- Source constant `base_structures['hybrid_approach']`. -/
def hybrid_approach : Tmpl := .ofList [
  ("01_Inbox", .nested (.ofList [
    ("New_Items", .leaf),
    ("Processing", .leaf),
    ("Quick_Access", .leaf)])),
  ("02_Active_Work", .nested (.ofList [
    ("Current_Projects", .nested (.ofList [
      ("Project_Alpha", .nested (.ofList [
        ("Documents", .leaf),
        ("Media", .leaf),
        ("Data", .leaf)]))])),
    ("Daily_Tasks", .leaf),
    ("Meetings_and_Notes", .leaf)])),
  ("03_Resources", .nested (.ofList [
    ("Templates", .leaf),
    ("Reference_Materials", .leaf),
    ("Tools_and_Utilities", .leaf)])),
  ("04_Archive", .nested (.ofList [
    ("By_Year", .nested (.ofList [
      ("2024", .leaf),
      ("2023", .leaf)])),
    ("Completed_Projects", .leaf)])),
  ("05_Personal", .nested (.ofList [
    ("Photos", .leaf),
    ("Documents", .leaf),
    ("Media", .leaf)]))]

/-- Source dict `self.base_structures`, in declaration order. -/
def base_structures : List (String × Tmpl) := [
  ("by_type", by_type),
  ("by_project", by_project),
  ("by_date", by_date),
  ("hybrid_approach", hybrid_approach)]

/-- Source dict `self.file_type_mappings`, in declaration order. -/
def file_type_mappings : List (String × List String) := [
  ("documents", [".pdf", ".doc", ".docx", ".txt", ".rtf", ".odt"]),
  ("spreadsheets", [".xls", ".xlsx", ".csv", ".ods"]),
  ("presentations", [".ppt", ".pptx", ".odp"]),
  ("images", [".jpg", ".jpeg", ".png", ".gif", ".bmp", ".tiff", ".svg"]),
  ("videos", [".mp4", ".avi", ".mov", ".wmv", ".flv", ".mkv"]),
  ("audio", [".mp3", ".wav", ".flac", ".aac", ".ogg"]),
  ("archives", [".zip", ".rar", ".7z", ".tar", ".gz"]),
  ("code", [".py", ".js", ".html", ".css", ".java", ".cpp", ".c"]),
  ("data", [".json", ".xml", ".sql", ".db", ".sqlite"])]

/-- Dict lookup `self.file_type_mappings[category]` (the code only looks up
keys that are present; absent keys here give `[]`). -/
def ftmGet (category : String) : List String :=
  match file_type_mappings.find? (fun kv => kv.1 == category) with
  | some kv => kv.2
  | none => []

/-- Embedding of `DataOrganizerSuggester.suggest_structure`: returns the
catalog entry for a known approach and raises
`ValueError(f"Unknown approach: {approach}")` otherwise, modelled as
`Except.error`. -/
def suggest_structure (approach : String) : Except String Tmpl :=
  match base_structures.find? (fun kv => kv.1 == approach) with
  | some kv => Except.ok kv.2
  | none => Except.error ("Unknown approach: " ++ approach)

/-- Filesystem state: the set of existing directories (as a list of path
strings) and the existing files as a map from path to contents. -/
structure FS where
  dirs : List String
  files : List (String × String)
deriving DecidableEq

/-- Contents of the file at path `q`, if a file exists there. -/
def FS.lookupFile (fs : FS) (q : String) : Option String :=
  match fs.files.find? (fun kv => kv.1 == q) with
  | some kv => some kv.2
  | none => none

/-- Python `Path.exists`: true when `q` is an existing file or directory. -/
def FS.pathExists (fs : FS) (q : String) : Bool :=
  (fs.lookupFile q).isSome || fs.dirs.contains q

/-- Helper for `slashPrefixes`: walk the characters, emitting the
accumulated path right before each slash and once at the end. -/
def slashPrefixesAux : List Char → List Char → List String
  | [], acc => [⟨acc.reverse⟩]
  | x :: xs, acc =>
      if x = '/' then ⟨acc.reverse⟩ :: slashPrefixesAux xs (x :: acc)
      else slashPrefixesAux xs (x :: acc)

/-- Every prefix of a path at a `/` boundary, the full path included, e.g.
`"a/b/c" ↦ ["a", "a/b", "a/b/c"]`: the directories that
`Path.mkdir(parents=True)` guarantees to exist afterwards. -/
def slashPrefixes (p : String) : List String :=
  slashPrefixesAux p.data []

/-- Insert a directory path if it is not present yet. -/
def insDir (ds : List String) (q : String) : List String :=
  if q ∈ ds then ds else ds ++ [q]

/-- Python `Path.mkdir(parents=True, exist_ok=True)`: make the path and all
its missing ancestors directories, succeeding silently on the existing
ones. -/
def FS.mkdirp (fs : FS) (p : String) : FS :=
  { fs with dirs := (slashPrefixes p).foldl insDir fs.dirs }

/-- Contents written into a freshly created folder's `README.md`:
`f"# {folder_name}\n\nThis folder is for organizing
{folder_name.lower().replace('_', ' ')} files.\n"`. -/
def readmeContent (folderName : String) : String :=
  "# " ++ folderName ++ "\n\nThis folder is for organizing "
    ++ ⟨(folderName.data.map Char.toLower).map (fun c => if c = '_' then ' ' else c)⟩
    ++ " files.\n"

/-- The marker-file step of `create_folder_structure`: write
`folder_path / "README.md"` unless that path already exists. -/
def writeReadmeIfAbsent (fs : FS) (folderPath folderName : String) : FS :=
  let rp := folderPath ++ "/README.md"
  if fs.pathExists rp then fs
  else { fs with files := fs.files ++ [(rp, readmeContent folderName)] }

mutual
/-- Embedding of the inner closure `create_recursive` of
`create_folder_structure`, the filesystem threaded explicitly.  For each
key: compute `folder_path = current_path / folder_name`, append it to the
result, and — unless `dry_run` — make the directory and write its
`README.md` marker; then recurse when the value is a nested dict. -/
def createRecT (dryRun : Bool) (fs : FS) (currentPath : String) : Tmpl → FS × List String
  | .nil => (fs, [])
  | .cons folderName contents rest =>
      let folderPath := currentPath ++ "/" ++ folderName
      let fs1 := if dryRun then fs
        else writeReadmeIfAbsent (fs.mkdirp folderPath) folderPath folderName
      let resContents := createRecE dryRun fs1 folderPath contents
      let resRest := createRecT dryRun resContents.1 currentPath rest
      (resRest.1, folderPath :: (resContents.2 ++ resRest.2))
/-- `create_recursive` on a single value: recurse only into nested dicts. -/
def createRecE (dryRun : Bool) (fs : FS) (folderPath : String) : Entry → FS × List String
  | .leaf => (fs, [])
  | .nested t => createRecT dryRun fs folderPath t
end

/-- Embedding of `DataOrganizerSuggester.create_folder_structure`: returns
the final filesystem together with the `created_folders` list. -/
def create_folder_structure (base_path : String) (struct : Tmpl) (dry_run : Bool)
    (fs : FS) : FS × List String :=
  createRecT dry_run fs base_path struct

mutual
/-- The (path, name) pair of every folder node of a template rooted at
`currentPath`, in the traversal order of `create_recursive`: depth-first,
pre-order, siblings in declaration order. -/
def Tmpl.nodesFrom (currentPath : String) : Tmpl → List (String × String)
  | .nil => []
  | .cons folderName contents rest =>
      let folderPath := currentPath ++ "/" ++ folderName
      ((folderPath, folderName) :: Entry.nodesFrom folderPath contents)
        ++ Tmpl.nodesFrom currentPath rest
/-- Nodes below a single template value. -/
def Entry.nodesFrom (folderPath : String) : Entry → List (String × String)
  | .leaf => []
  | .nested t => Tmpl.nodesFrom folderPath t
end

/-- Mutating effect of one visited node when `dry_run` is false. -/
def stepNode (fs : FS) (pn : String × String) : FS :=
  writeReadmeIfAbsent (fs.mkdirp pn.1) pn.1 pn.2

/-- One filesystem entry yielded by `Path.rglob('*')` during the analysis
walk: its full path, its final component (`Path.name`), whether it is a
regular file, and its size in bytes — `none` when `stat()` raises. -/
structure FileEntry where
  path : String
  name : String
  isFile : Bool
  size : Option Nat
deriving DecidableEq

/-- CPython `PurePath.suffix` of a final component: with `i` the index of
the last `'.'`, the substring from `i` on when `0 < i < len - 1`, else the
empty string (so extensionless names, dotfiles such as `.bashrc`, and
names ending in `'.'` all give `""`). -/
def pathSuffix (name : String) : String :=
  let cs := name.data
  match ((List.range cs.length).filter (fun i => cs.getD i ' ' = '.')).getLast? with
  | some i => if 0 < i ∧ i + 1 < cs.length then ⟨cs.drop i⟩ else ""
  | none => ""

/-- Python `str.lower`, character by character (exact on the ASCII strings
this program compares). -/
def pyLower (s : String) : String := ⟨s.data.map Char.toLower⟩

/-- Dict update `d[suffix] = d.get(suffix, 0) + 1` on an ordered
association list: bump in place, or append a fresh key with count 1. -/
def bumpCount : List (String × Nat) → String → List (String × Nat)
  | [], s => [(s, 1)]
  | (k, v) :: rest, s =>
      if k = s then (k, v + 1) :: rest else (k, v) :: bumpCount rest s

/-- Dict read `d.get(s, 0)` on the ordered association list. -/
def getCount : List (String × Nat) → String → Nat
  | [], _ => 0
  | (k, v) :: rest, s => if k = s then v else getCount rest s

/-- Entry of the `large_files` list: the file's path and its size in
megabytes rounded to two decimals. -/
structure LargeFile where
  path : String
  size_mb : ℚ
deriving DecidableEq

/-- Round-half-to-even to an integer (Python's `round` tie rule). -/
def roundHalfEven (q : ℚ) : ℤ :=
  let f := ⌊q⌋
  let frac := q - f
  if frac < 1 / 2 then f
  else if 1 / 2 < frac then f + 1
  else if f % 2 = 0 then f else f + 1

/-- Python `round(x, 2)` on an exact rational. -/
def round2 (q : ℚ) : ℚ := (roundHalfEven (q * 100) : ℚ) / 100

/-- Accumulator of the analysis walk: the three tallied fields of
`file_analysis`. -/
structure ScanState where
  total_files : Nat
  file_types : List (String × Nat)
  large_files : List LargeFile
deriving DecidableEq

/-- Per-entry body of the `for file_path in data_path.rglob('*')` loop:
regular files bump the total and their lowercased suffix's count, then the
guarded size check appends to `large_files` when the size is readable and
exceeds 100 MB (a failing `stat` is swallowed by `except: pass`). -/
def stepFile (st : ScanState) (e : FileEntry) : ScanState :=
  if e.isFile then
    let st1 : ScanState :=
      { st with total_files := st.total_files + 1,
                file_types := bumpCount st.file_types (pyLower (pathSuffix e.name)) }
    match e.size with
    | some sz =>
        let size_mb : ℚ := (sz : ℚ) / (1024 * 1024)
        if 100 < size_mb then
          { st1 with large_files :=
              st1.large_files ++ [⟨e.path, round2 size_mb⟩] }
        else st1
    | none => st1
  else st

/-- Recommendation strings, verbatim from the source. -/
def recProject : String :=
  "Consider using 'by_project' approach - you have many document files"

/-- Recommendation emitted when media files dominate. -/
def recType : String :=
  "Consider using 'by_type' approach - you have many media files"

/-- Recommendation emitted on the tie (including zero/zero). -/
def recHybrid : String :=
  "Consider using 'hybrid_approach' for balanced organization"

/-- Recommendation emitted when the large-files list is non-empty. -/
def recLarge : String :=
  "Consider creating a separate 'Large_Files' folder for files >100MB"

/-- Recommendation emitted when more than 1000 files were counted. -/
def recDate : String :=
  "Consider using date-based organization due to large number of files"

/-- Recommendation derivation of `analyze_existing_data`: three rules run
in order, each appending zero or one string. -/
def recommendationsOf (st : ScanState) : List String :=
  let doc_files := ((ftmGet "documents").map (fun ext => getCount st.file_types ext)).sum
  let media_files := ((ftmGet "images" ++ ftmGet "videos" ++ ftmGet "audio").map
    (fun ext => getCount st.file_types ext)).sum
  (if media_files < doc_files then [recProject]
   else if doc_files < media_files then [recType]
   else [recHybrid])
  ++ (if 0 < st.large_files.length then [recLarge] else [])
  ++ (if 1000 < st.total_files then [recDate] else [])

/-- Return value of `analyze_existing_data`: the success dict has no
`error` key (here `none`) and the early-return error dict
`{"error": ...}` carries no other keys (here the zero defaults). -/
structure Report where
  error : Option String := none
  total_files : Nat := 0
  file_types : List (String × Nat) := []
  large_files : List LargeFile := []
  recommendations : List String := []
deriving DecidableEq

/-- Embedding of `DataOrganizerSuggester.analyze_existing_data`.  The
filesystem walk is abstracted as the root's existence flag plus the list
of entries `rglob` yields, in yield order. -/
def analyze_existing_data (data_path : String) (pathDoesExist : Bool)
    (entries : List FileEntry) : Report :=
  if pathDoesExist = false then
    { error := some ("Path " ++ data_path ++ " does not exist") }
  else
    let st := entries.foldl stepFile ⟨0, [], []⟩
    { error := none
      total_files := st.total_files
      file_types := st.file_types
      large_files := st.large_files
      recommendations := recommendationsOf st }

/-- Everything one node's processing guarantees afterwards: its directory
chain exists and its marker path exists. -/
def nodeDone (fs : FS) (pn : String × String) : Prop :=
  (∀ q ∈ slashPrefixes pn.1, q ∈ fs.dirs) ∧
    fs.pathExists (pn.1 ++ "/README.md") = true

/-- The large-file record an entry contributes, if any: present exactly
when the entry is a regular file with a readable size above 100 MB. -/
def largeOf? (e : FileEntry) : Option LargeFile :=
  if e.isFile then
    match e.size with
    | some sz =>
        if 100 < (sz : ℚ) / (1024 * 1024) then
          some ⟨e.path, round2 ((sz : ℚ) / (1024 * 1024))⟩
        else none
    | none => none
  else none

/-- Total of all per-extension counts of a tally. -/
def sumCounts (d : List (String × Nat)) : Nat := (d.map (fun kv => kv.2)).sum

/-- Suffix as the examined claim words it: the substring of the name from
the last '.' onward, or the empty string when the name has no '.' at all
(written to be compared against `pathSuffix`, the behavior of the code). -/
def claimSuffix (name : String) : String :=
  match ((List.range name.data.length).filter
      (fun i => name.data.getD i ' ' = '.')).getLast? with
  | some i => ⟨name.data.drop i⟩
  | none => ""

/-! ### Lemmas about the materializer -/

mutual
/-- The `created_folders` list is the first projection of the pre-order
node enumeration, independent of the filesystem and of `dry_run`. -/
theorem createRecT_snd (d : Bool) : ∀ (t : Tmpl) (p : String) (fs : FS),
    (createRecT d fs p t).2 = (t.nodesFrom p).map Prod.fst
  | .nil, _, _ => rfl
  | .cons n e rest, p, fs => by
      simp [createRecT, Tmpl.nodesFrom, createRecE_snd d e, createRecT_snd d rest]
/-- Companion of `createRecT_snd` for a single template value. -/
theorem createRecE_snd (d : Bool) : ∀ (e : Entry) (p : String) (fs : FS),
    (createRecE d fs p e).2 = (e.nodesFrom p).map Prod.fst
  | .leaf, _, _ => rfl
  | .nested t, p, fs => createRecT_snd d t p fs
end

mutual
/-- Pre-order enumeration length is the template's node count. -/
theorem nodesFromT_length : ∀ (t : Tmpl) (p : String),
    (t.nodesFrom p).length = t.nodeCount
  | .nil, _ => rfl
  | .cons n e rest, p => by
      have h1 := nodesFromE_length e (p ++ "/" ++ n)
      have h2 := nodesFromT_length rest p
      simp [Tmpl.nodesFrom, Tmpl.nodeCount, h1, h2]
      omega
/-- Companion of `nodesFromT_length` for a single template value. -/
theorem nodesFromE_length : ∀ (e : Entry) (p : String),
    (e.nodesFrom p).length = e.nodeCount
  | .leaf, _ => rfl
  | .nested t, p => nodesFromT_length t p
end

mutual
/-- A dry run leaves the filesystem untouched. -/
theorem createRecT_fst_dry : ∀ (t : Tmpl) (p : String) (fs : FS),
    (createRecT true fs p t).1 = fs
  | .nil, _, _ => rfl
  | .cons n e rest, p, fs => by
      simp [createRecT, createRecE_fst_dry e, createRecT_fst_dry rest]
/-- Companion of `createRecT_fst_dry` for a single template value. -/
theorem createRecE_fst_dry : ∀ (e : Entry) (p : String) (fs : FS),
    (createRecE true fs p e).1 = fs
  | .leaf, _, _ => rfl
  | .nested t, p, fs => createRecT_fst_dry t p fs
end

mutual
/-- A non-dry run's final filesystem is the fold of the per-node mutation
over the pre-order node enumeration. -/
theorem createRecT_fst_wet : ∀ (t : Tmpl) (p : String) (fs : FS),
    (createRecT false fs p t).1 = (t.nodesFrom p).foldl stepNode fs
  | .nil, _, _ => rfl
  | .cons n e rest, p, fs => by
      have h1 := createRecE_fst_wet e (p ++ "/" ++ n) (stepNode fs (p ++ "/" ++ n, n))
      have h2 := createRecT_fst_wet rest p
        ((createRecE false (stepNode fs (p ++ "/" ++ n, n)) (p ++ "/" ++ n) e).1)
      simp only [stepNode] at h1 h2
      rw [h1] at h2
      simp [createRecT, Tmpl.nodesFrom, stepNode, List.foldl_append, h1, h2]
/-- Companion of `createRecT_fst_wet` for a single template value. -/
theorem createRecE_fst_wet : ∀ (e : Entry) (p : String) (fs : FS),
    (createRecE false fs p e).1 = (e.nodesFrom p).foldl stepNode fs
  | .leaf, _, _ => rfl
  | .nested t, p, fs => createRecT_fst_wet t p fs
end

/-! ### Lemmas about the filesystem model -/

/-- Writing a marker file never touches the directory set. -/
theorem dirs_write (fs : FS) (fp n : String) :
    (writeReadmeIfAbsent fs fp n).dirs = fs.dirs := by
  simp only [writeReadmeIfAbsent]
  split <;> rfl

/-- Membership after a single conditional directory insertion. -/
theorem mem_insDir (ds : List String) (x q : String) :
    q ∈ insDir ds x ↔ q ∈ ds ∨ q = x := by
  unfold insDir
  split
  · refine ⟨Or.inl, fun h => ?_⟩
    rcases h with h | rfl
    · exact h
    · assumption
  · simp [List.mem_append]

/-- Membership after folding conditional insertions over a list. -/
theorem mem_foldl_insDir : ∀ (l ds : List String) (q : String),
    q ∈ l.foldl insDir ds ↔ q ∈ ds ∨ q ∈ l
  | [], ds, q => by simp
  | x :: l, ds, q => by
      simp only [List.foldl_cons]
      rw [mem_foldl_insDir l (insDir ds x) q, mem_insDir]
      simp only [List.mem_cons]
      tauto

/-- Folding insertions of already-present directories is the identity. -/
theorem foldl_insDir_id : ∀ (l ds : List String), (∀ q ∈ l, q ∈ ds) →
    l.foldl insDir ds = ds
  | [], _, _ => rfl
  | x :: l, ds, h => by
      have hx : x ∈ ds := h x (List.mem_cons_self x l)
      rw [List.foldl_cons, show insDir ds x = ds from by simp [insDir, hx]]
      exact foldl_insDir_id l ds (fun q hq => h q (List.mem_cons_of_mem x hq))

/-- Directory membership after `mkdir(parents=True, exist_ok=True)`. -/
theorem mem_dirs_mkdirp (fs : FS) (p q : String) :
    q ∈ (fs.mkdirp p).dirs ↔ q ∈ fs.dirs ∨ q ∈ slashPrefixes p :=
  mem_foldl_insDir (slashPrefixes p) fs.dirs q

/-- `mkdir` of a path whose prefixes all exist changes nothing. -/
theorem mkdirp_id (fs : FS) (p : String) (h : ∀ q ∈ slashPrefixes p, q ∈ fs.dirs) :
    fs.mkdirp p = fs := by
  unfold FS.mkdirp
  rw [foldl_insDir_id _ _ h]

/-- Existing file contents survive a marker-file write. -/
theorem lookupFile_write_some (fs : FS) (fp n q c : String)
    (h : fs.lookupFile q = some c) :
    (writeReadmeIfAbsent fs fp n).lookupFile q = some c := by
  simp only [writeReadmeIfAbsent]
  split
  · exact h
  · unfold FS.lookupFile at h ⊢
    simp only [List.find?_append]
    cases hf : List.find? (fun kv => kv.1 == q) fs.files with
    | none => rw [hf] at h; exact absurd h (by simp)
    | some kv => rw [hf] at h; simpa using h

/-- A path other than the one written stays absent. -/
theorem lookupFile_write_none (fs : FS) (fp n q : String)
    (h : fs.lookupFile q = none) (hne : fp ++ "/README.md" ≠ q) :
    (writeReadmeIfAbsent fs fp n).lookupFile q = none := by
  simp only [writeReadmeIfAbsent]
  split
  · exact h
  · unfold FS.lookupFile at h ⊢
    simp only [List.find?_append]
    cases hf : List.find? (fun kv => kv.1 == q) fs.files with
    | some kv => rw [hf] at h; simp at h
    | none =>
        have hb : ((fp ++ "/README.md") == q) = false := by
          simp [hne]
        simp [List.find?, hb]

/-- When the marker path does not yet exist, the write puts the derived
description there. -/
theorem lookupFile_write_self (fs : FS) (fp n : String)
    (h : fs.pathExists (fp ++ "/README.md") = false) :
    (writeReadmeIfAbsent fs fp n).lookupFile (fp ++ "/README.md")
      = some (readmeContent n) := by
  have h1 : fs.lookupFile (fp ++ "/README.md") = none := by
    unfold FS.pathExists at h
    cases hl : fs.lookupFile (fp ++ "/README.md") with
    | none => rfl
    | some c => rw [hl] at h; simp at h
  simp only [writeReadmeIfAbsent]
  rw [if_neg (by simp [h])]
  unfold FS.lookupFile at h1 ⊢
  simp only [List.find?_append]
  cases hf : List.find? (fun kv => kv.1 == (fp ++ "/README.md")) fs.files with
  | some kv => rw [hf] at h1; simp at h1
  | none => simp [List.find?]

/-- Every element produced by `slashPrefixesAux` is no longer than the
consumed input plus the accumulator. -/
theorem slashPrefixesAux_length : ∀ (cs acc : List Char) (q : String),
    q ∈ slashPrefixesAux cs acc → q.data.length ≤ cs.length + acc.length
  | [], acc, q, h => by
      simp only [slashPrefixesAux, List.mem_singleton] at h
      subst h
      simp
  | x :: xs, acc, q, h => by
      simp only [slashPrefixesAux] at h
      split at h
      · rcases List.mem_cons.mp h with h | h
        · subst h
          have hq : (String.mk acc.reverse).data.length = acc.length := by simp
          rw [hq]
          simp only [List.length_cons]
          omega
        · have := slashPrefixesAux_length xs (x :: acc) q h
          simp only [List.length_cons] at this ⊢
          omega
      · have := slashPrefixesAux_length xs (x :: acc) q h
        simp only [List.length_cons] at this ⊢
        omega

/-- A slash-prefix of `p` is no longer than `p`. -/
theorem mem_slashPrefixes_length (p q : String) (h : q ∈ slashPrefixes p) :
    q.data.length ≤ p.data.length := by
  have := slashPrefixesAux_length p.data [] q h
  simpa using this

/-- A folder's marker path is strictly longer than the folder path, so it
is never one of the directories `mkdir(parents=True)` creates for it. -/
theorem readme_notMem_slashPrefixes (p : String) :
    (p ++ "/README.md") ∉ slashPrefixes p := by
  intro h
  have hle := mem_slashPrefixes_length p _ h
  have hdata : (p ++ "/README.md").data.length = p.data.length + 10 := by
    rw [String.data_append, List.length_append]
    norm_num [show ("/README.md" : String).data.length = 10 from rfl]
  omega

/-- Existing file contents survive one node's mutation. -/
theorem stepNode_lookup_some (fs : FS) (pn : String × String) (q c : String)
    (h : fs.lookupFile q = some c) : (stepNode fs pn).lookupFile q = some c := by
  unfold stepNode
  exact lookupFile_write_some (fs.mkdirp pn.1) pn.1 pn.2 q c h

/-- Existing directories survive one node's mutation. -/
theorem stepNode_dirs_mono (fs : FS) (pn : String × String) (q : String)
    (h : q ∈ fs.dirs) : q ∈ (stepNode fs pn).dirs := by
  unfold stepNode
  rw [dirs_write]
  exact (mem_dirs_mkdirp fs pn.1 q).mpr (Or.inl h)

/-- Existing paths survive one node's mutation. -/
theorem stepNode_pathExists_mono (fs : FS) (pn : String × String) (q : String)
    (h : fs.pathExists q = true) : (stepNode fs pn).pathExists q = true := by
  unfold FS.pathExists at h ⊢
  simp only [Bool.or_eq_true] at h ⊢
  rcases h with h | h
  · cases hl : fs.lookupFile q with
    | none => rw [hl] at h; simp at h
    | some c =>
        left
        rw [stepNode_lookup_some fs pn q c hl]
        rfl
  · right
    simp only [List.contains_iff_exists_mem_beq] at h ⊢
    rcases h with ⟨a, ha, hb⟩
    exact ⟨a, stepNode_dirs_mono fs pn a ha, hb⟩

/-- Existing file contents survive a whole materialization fold. -/
theorem foldl_stepNode_lookup_some : ∀ (ns : List (String × String)) (fs : FS)
    (q c : String), fs.lookupFile q = some c →
    (ns.foldl stepNode fs).lookupFile q = some c
  | [], _, _, _, h => h
  | pn :: ns, fs, q, c, h =>
      foldl_stepNode_lookup_some ns (stepNode fs pn) q c
        (stepNode_lookup_some fs pn q c h)

/-- Processing a node establishes `nodeDone` for it. -/
theorem stepNode_establishes (fs : FS) (pn : String × String) :
    nodeDone (stepNode fs pn) pn := by
  constructor
  · intro q hq
    unfold stepNode
    rw [dirs_write]
    exact (mem_dirs_mkdirp fs pn.1 q).mpr (Or.inr hq)
  · unfold stepNode
    by_cases hex : (fs.mkdirp pn.1).pathExists (pn.1 ++ "/README.md") = true
    · have : writeReadmeIfAbsent (fs.mkdirp pn.1) pn.1 pn.2 = fs.mkdirp pn.1 := by
        simp only [writeReadmeIfAbsent]
        rw [if_pos hex]
      rw [this]
      exact hex
    · have hex' : (fs.mkdirp pn.1).pathExists (pn.1 ++ "/README.md") = false := by
        simpa using hex
      have := lookupFile_write_self (fs.mkdirp pn.1) pn.1 pn.2 hex'
      unfold FS.pathExists
      rw [this]
      rfl

/-- `nodeDone` is monotone along further node processing. -/
theorem nodeDone_mono (fs : FS) (pn pn' : String × String)
    (h : nodeDone fs pn) : nodeDone (stepNode fs pn') pn :=
  ⟨fun q hq => stepNode_dirs_mono fs pn' q (h.1 q hq),
   stepNode_pathExists_mono fs pn' _ h.2⟩

/-- `nodeDone` is monotone along a whole fold. -/
theorem foldl_nodeDone_mono : ∀ (ns : List (String × String)) (fs : FS)
    (pn : String × String), nodeDone fs pn → nodeDone (ns.foldl stepNode fs) pn
  | [], _, _, h => h
  | pn' :: ns, fs, pn, h =>
      foldl_nodeDone_mono ns (stepNode fs pn') pn (nodeDone_mono fs pn pn' h)

/-- After folding over a node list, every node of the list is done. -/
theorem foldl_nodeDone : ∀ (ns : List (String × String)) (fs : FS)
    (pn : String × String), pn ∈ ns → nodeDone (ns.foldl stepNode fs) pn
  | [], _, _, h => absurd h (List.not_mem_nil _)
  | pn' :: ns, fs, pn, h => by
      rcases List.mem_cons.mp h with h | h
      · subst h
        exact foldl_nodeDone_mono ns (stepNode fs pn) pn (stepNode_establishes fs pn)
      · exact foldl_nodeDone ns (stepNode fs pn') pn h

/-- Processing a node that is already done changes nothing. -/
theorem stepNode_id_of_done (fs : FS) (pn : String × String)
    (h : nodeDone fs pn) : stepNode fs pn = fs := by
  unfold stepNode
  rw [mkdirp_id fs pn.1 h.1]
  simp only [writeReadmeIfAbsent]
  rw [if_pos h.2]

/-- Folding over nodes that are all already done changes nothing. -/
theorem foldl_stepNode_id : ∀ (ns : List (String × String)) (fs : FS),
    (∀ pn ∈ ns, nodeDone fs pn) → ns.foldl stepNode fs = fs
  | [], _, _ => rfl
  | pn :: ns, fs, h => by
      rw [List.foldl_cons, stepNode_id_of_done fs pn (h pn (List.mem_cons_self pn ns))]
      exact foldl_stepNode_id ns fs (fun pn' h' => h pn' (List.mem_cons_of_mem pn h'))

/-- `List.contains` is false on a non-member. -/
theorem contains_eq_false_of_notMem (l : List String) (q : String) (h : q ∉ l) :
    l.contains q = false := by
  by_contra hc
  have hc' : l.contains q = true := by simpa using hc
  rw [List.contains_iff_exists_mem_beq] at hc'
  rcases hc' with ⟨a, ha, hb⟩
  exact h (by
    have : q = a := by simpa using hb
    rw [this]
    exact ha)

/-- If a node's marker path is absent, is not hit by any earlier node's
write or directory creation, and the node occurs in the work list, then
after the fold the marker file holds the description derived from the
node's folder name. -/
theorem foldl_stepNode_write_content :
    ∀ (ns1 : List (String × String)) (fs : FS) (p n : String)
      (ns2 : List (String × String)),
    fs.lookupFile (p ++ "/README.md") = none →
    (p ++ "/README.md") ∉ fs.dirs →
    (∀ pn' ∈ ns1, pn'.1 ++ "/README.md" ≠ p ++ "/README.md") →
    (∀ pn' ∈ ns1, (p ++ "/README.md") ∉ slashPrefixes pn'.1) →
    ((ns1 ++ (p, n) :: ns2).foldl stepNode fs).lookupFile (p ++ "/README.md")
      = some (readmeContent n)
  | [], fs, p, n, ns2, h1, h2, _, _ => by
      rw [List.nil_append, List.foldl_cons]
      have hlk : (fs.mkdirp p).lookupFile (p ++ "/README.md") = none := h1
      have hdir : (p ++ "/README.md") ∉ (fs.mkdirp p).dirs := by
        rw [mem_dirs_mkdirp]
        rintro (h | h)
        · exact h2 h
        · exact readme_notMem_slashPrefixes p h
      have hex : (fs.mkdirp p).pathExists (p ++ "/README.md") = false := by
        unfold FS.pathExists
        rw [hlk, contains_eq_false_of_notMem _ _ hdir]
        rfl
      have hw := lookupFile_write_self (fs.mkdirp p) p n hex
      exact foldl_stepNode_lookup_some ns2 _ _ _ hw
  | pn' :: ns1, fs, p, n, ns2, h1, h2, h4, h5 => by
      rw [List.cons_append, List.foldl_cons]
      have hne := h4 pn' (List.mem_cons_self pn' ns1)
      have hpre := h5 pn' (List.mem_cons_self pn' ns1)
      have h1' : (stepNode fs pn').lookupFile (p ++ "/README.md") = none := by
        unfold stepNode
        exact lookupFile_write_none (fs.mkdirp pn'.1) pn'.1 pn'.2 _ h1 hne
      have h2' : (p ++ "/README.md") ∉ (stepNode fs pn').dirs := by
        unfold stepNode
        rw [dirs_write, mem_dirs_mkdirp]
        rintro (h | h)
        · exact h2 h
        · exact hpre h
      exact foldl_stepNode_write_content ns1 (stepNode fs pn') p n ns2 h1' h2'
        (fun q hq => h4 q (List.mem_cons_of_mem pn' hq))
        (fun q hq => h5 q (List.mem_cons_of_mem pn' hq))

/-! ### Lemmas about the analyzer -/

/-- One loop iteration bumps the total by one exactly for regular files. -/
theorem stepFile_total (st : ScanState) (e : FileEntry) :
    (stepFile st e).total_files = st.total_files + (if e.isFile then 1 else 0) := by
  unfold stepFile
  cases hf : e.isFile
  · simp
  · cases hs : e.size
    · simp
    · simp only [if_true]
      split <;> simp

/-- One loop iteration bumps the suffix tally exactly for regular files. -/
theorem stepFile_types (st : ScanState) (e : FileEntry) :
    (stepFile st e).file_types =
      if e.isFile then bumpCount st.file_types (pyLower (pathSuffix e.name))
      else st.file_types := by
  unfold stepFile
  cases hf : e.isFile
  · simp
  · cases hs : e.size
    · simp
    · simp only [if_true]
      split <;> simp

/-- One loop iteration appends exactly the entry's large-file record. -/
theorem stepFile_large (st : ScanState) (e : FileEntry) :
    (stepFile st e).large_files = st.large_files ++ (largeOf? e).toList := by
  unfold stepFile largeOf?
  cases hf : e.isFile
  · simp
  · cases hs : e.size
    · simp
    · simp only [if_true]
      split <;> simp

/-- The walk's large-files list collects one record per oversized file,
in visit order. -/
theorem foldl_stepFile_large : ∀ (es : List FileEntry) (st : ScanState),
    (es.foldl stepFile st).large_files = st.large_files ++ es.filterMap largeOf?
  | [], st => by simp
  | e :: es, st => by
      rw [List.foldl_cons, foldl_stepFile_large es (stepFile st e), stepFile_large]
      cases h : largeOf? e <;> simp [List.filterMap_cons, h]

/-- The walk's total is the number of regular-file entries. -/
theorem foldl_stepFile_total : ∀ (es : List FileEntry) (st : ScanState),
    (es.foldl stepFile st).total_files =
      st.total_files + (es.filter (fun e => e.isFile)).length
  | [], st => by simp
  | e :: es, st => by
      rw [List.foldl_cons, foldl_stepFile_total es (stepFile st e), stepFile_total]
      cases hf : e.isFile
      · simp [List.filter_cons, hf]
      · simp [List.filter_cons, hf]
        omega

/-- Bumping a key's count changes that key's reading by one and no
other key's reading. -/
theorem getCount_bump : ∀ (d : List (String × Nat)) (s' s : String),
    getCount (bumpCount d s') s = getCount d s + (if s' = s then 1 else 0)
  | [], s', s => by
      by_cases hss : s' = s <;> simp [bumpCount, getCount, hss]
  | (k, v) :: d, s', s => by
      by_cases hks : k = s'
      · subst hks
        by_cases hs : k = s <;> simp [bumpCount, getCount, hs]
      · have IH := getCount_bump d s' s
        by_cases hkss : k = s
        · subst hkss
          have hsk : ¬s' = k := fun h => hks h.symm
          simp [bumpCount, getCount, hks, hsk]
        · simp [bumpCount, getCount, hks, hkss, IH]

/-- The walk's tally for key `s` counts the regular files whose lowercased
suffix is `s`. -/
theorem foldl_stepFile_getCount : ∀ (es : List FileEntry) (st : ScanState) (s : String),
    getCount ((es.foldl stepFile st).file_types) s =
      getCount st.file_types s +
        (es.filter (fun e => e.isFile && (pyLower (pathSuffix e.name) == s))).length
  | [], st, s => by simp
  | e :: es, st, s => by
      rw [List.foldl_cons, foldl_stepFile_getCount es (stepFile st e) s, stepFile_types]
      cases hf : e.isFile
      · simp [List.filter_cons, hf]
      · by_cases hsfx : pyLower (pathSuffix e.name) = s
        · simp [List.filter_cons, hf, hsfx, getCount_bump]
          omega
        · simp [List.filter_cons, hf, hsfx, getCount_bump]

/-- A bump raises the total of all counts by one. -/
theorem sumCounts_bump : ∀ (d : List (String × Nat)) (s : String),
    sumCounts (bumpCount d s) = sumCounts d + 1
  | [], s => by simp [bumpCount, sumCounts]
  | (k, v) :: d, s => by
      by_cases hks : k = s
      · simp [bumpCount, sumCounts, hks]
        omega
      · have IH := sumCounts_bump d s
        simp [bumpCount, sumCounts, hks]
        simp [sumCounts] at IH
        omega

/-- Along the walk, the total of all per-extension counts advances exactly
with the file total. -/
theorem foldl_stepFile_sumCounts : ∀ (es : List FileEntry) (st : ScanState),
    sumCounts ((es.foldl stepFile st).file_types) =
      sumCounts st.file_types + (es.filter (fun e => e.isFile)).length
  | [], st => by simp
  | e :: es, st => by
      rw [List.foldl_cons, foldl_stepFile_sumCounts es (stepFile st e), stepFile_types]
      cases hf : e.isFile
      · simp [List.filter_cons, hf, sumCounts_bump]
      · simp [List.filter_cons, hf, sumCounts_bump]
        omega

/-! ### The claims -/

/-- C2: for every base path, template, filesystem and dryRun flag,
`create_folder_structure` returns one path per folder node of the
template, in depth-first pre-order (parent before children, siblings in
declaration order — the order of `Tmpl.nodesFrom`), regardless of the
dryRun flag; its length is the total number of keys at every nesting
level of the template. -/
theorem claim_C2_preorder_paths (base_path : String) (t : Tmpl) (dry_run : Bool)
    (fs : FS) :
    (create_folder_structure base_path t dry_run fs).2 =
        (t.nodesFrom base_path).map Prod.fst ∧
      (create_folder_structure base_path t dry_run fs).2.length = t.nodeCount := by
  constructor
  · exact createRecT_snd dry_run t base_path fs
  · rw [show (create_folder_structure base_path t dry_run fs).2 =
        (t.nodesFrom base_path).map Prod.fst from createRecT_snd dry_run t base_path fs,
      List.length_map]
    exact nodesFromT_length t base_path

/-- C3: a dry run performs no filesystem mutation at all — the returned
state is the input state — and the returned path sequence is the same on
every call, whatever the filesystem looks like at call time. -/
theorem claim_C3_dry_run_no_mutation (base_path : String) (t : Tmpl) (fs fs' : FS) :
    create_folder_structure base_path t true fs =
        (fs, (t.nodesFrom base_path).map Prod.fst) ∧
      (create_folder_structure base_path t true fs).2 =
        (create_folder_structure base_path t true fs').2 := by
  have h1 := createRecT_fst_dry t base_path fs
  have h2 := createRecT_snd true t base_path fs
  have h2' := createRecT_snd true t base_path fs'
  constructor
  · unfold create_folder_structure
    exact Prod.ext h1 h2
  · unfold create_folder_structure
    rw [h2, h2']

/-- C4: `suggest_structure` returns a non-empty template for each of the
four catalog names and fails with `ValueError("Unknown approach: ...")`
for every other string. -/
theorem claim_C4_catalog (s : String) :
    (∀ name ∈ ["by_type", "by_project", "by_date", "hybrid_approach"],
      ∃ t, suggest_structure name = Except.ok t ∧ t.isNil = false) ∧
    (s ∉ ["by_type", "by_project", "by_date", "hybrid_approach"] →
      suggest_structure s = Except.error ("Unknown approach: " ++ s)) := by
  constructor
  · intro name hname
    simp only [List.mem_cons, List.mem_singleton] at hname
    rcases hname with rfl | rfl | rfl | rfl | h
    · exact ⟨by_type, rfl, rfl⟩
    · exact ⟨by_project, rfl, rfl⟩
    · exact ⟨by_date, rfl, rfl⟩
    · exact ⟨hybrid_approach, rfl, rfl⟩
    · exact absurd h (List.not_mem_nil name)
  · intro hs
    have key : ∀ a : String, s ≠ a → (a == s) = false := by
      intro a ha
      cases hb : a == s with
      | false => rfl
      | true => exact absurd (eq_of_beq hb).symm ha
    have h1 : s ≠ "by_type" := fun h => hs (by rw [h]; decide)
    have h2 : s ≠ "by_project" := fun h => hs (by rw [h]; decide)
    have h3 : s ≠ "by_date" := fun h => hs (by rw [h]; decide)
    have h4 : s ≠ "hybrid_approach" := fun h => hs (by rw [h]; decide)
    simp [suggest_structure, base_structures, List.find?,
      key _ h1, key _ h2, key _ h3, key _ h4]

/-- Witness for C4 at the unknown name "by_week" and the known name
"by_type". -/
theorem claim_C4_catalog_witness :
    suggest_structure "by_week" = Except.error ("Unknown approach: " ++ "by_week") ∧
      (∃ t, suggest_structure "by_type" = Except.ok t ∧ t.isNil = false) :=
  ⟨(claim_C4_catalog "by_week").2 (by decide),
   (claim_C4_catalog "by_week").1 "by_type" (by decide)⟩

/-- C5: analyzing a nonexistent root returns a report-shaped value whose
only populated field is the error indicator; counts, tallies, large files
and recommendations are all absent/zero. -/
theorem claim_C5_nonexistent_path (data_path : String) (entries : List FileEntry) :
    analyze_existing_data data_path false entries =
      { error := some ("Path " ++ data_path ++ " does not exist"),
        total_files := 0, file_types := [], large_files := [],
        recommendations := [] } :=
  rfl

/-- C9: a regular file whose size cannot be read is silently skipped: the
analysis returns normally (no error surfaces), the file leaves no trace in
the large-files list, and the walk continues over the remaining files —
the file itself is still counted in the total. -/
theorem claim_C9_stat_failure_swallowed (data_path : String)
    (pre post : List FileEntry) (e : FileEntry)
    (hf : e.isFile = true) (hs : e.size = none) :
    (analyze_existing_data data_path true (pre ++ e :: post)).error = none ∧
    (analyze_existing_data data_path true (pre ++ e :: post)).large_files =
      (analyze_existing_data data_path true (pre ++ post)).large_files ∧
    (analyze_existing_data data_path true (pre ++ e :: post)).total_files =
      (analyze_existing_data data_path true (pre ++ post)).total_files + 1 := by
  have hnone : largeOf? e = none := by
    unfold largeOf?
    rw [hf, hs]
    simp
  refine ⟨rfl, ?_, ?_⟩
  · show ((pre ++ e :: post).foldl stepFile ⟨0, [], []⟩).large_files =
      ((pre ++ post).foldl stepFile ⟨0, [], []⟩).large_files
    rw [foldl_stepFile_large, foldl_stepFile_large]
    simp [List.filterMap_append, List.filterMap_cons, hnone]
  · show ((pre ++ e :: post).foldl stepFile ⟨0, [], []⟩).total_files =
      ((pre ++ post).foldl stepFile ⟨0, [], []⟩).total_files + 1
    rw [foldl_stepFile_total, foldl_stepFile_total]
    simp [List.filter_append, List.filter_cons, hf]
    omega

/-- Witness for C9: one unreadable file between two readable ones. -/
theorem claim_C9_stat_failure_swallowed_witness :
    (analyze_existing_data "/d" true
        ([⟨"/d/a.txt", "a.txt", true, none⟩] ++
          ⟨"/d/x.txt", "x.txt", true, none⟩ :: [⟨"/d/y.pdf", "y.pdf", true, none⟩])).error
        = none ∧
    (analyze_existing_data "/d" true
        ([⟨"/d/a.txt", "a.txt", true, none⟩] ++
          ⟨"/d/x.txt", "x.txt", true, none⟩ :: [⟨"/d/y.pdf", "y.pdf", true, none⟩])).large_files =
      (analyze_existing_data "/d" true
        ([⟨"/d/a.txt", "a.txt", true, none⟩] ++ [⟨"/d/y.pdf", "y.pdf", true, none⟩])).large_files ∧
    (analyze_existing_data "/d" true
        ([⟨"/d/a.txt", "a.txt", true, none⟩] ++
          ⟨"/d/x.txt", "x.txt", true, none⟩ :: [⟨"/d/y.pdf", "y.pdf", true, none⟩])).total_files =
      (analyze_existing_data "/d" true
        ([⟨"/d/a.txt", "a.txt", true, none⟩] ++ [⟨"/d/y.pdf", "y.pdf", true, none⟩])).total_files + 1 :=
  claim_C9_stat_failure_swallowed "/d"
    [⟨"/d/a.txt", "a.txt", true, none⟩] [⟨"/d/y.pdf", "y.pdf", true, none⟩]
    ⟨"/d/x.txt", "x.txt", true, none⟩ rfl rfl

/-- C10: on a successful analysis the per-extension counts sum to the
total file count — every counted file contributes exactly one tally, even
when its size cannot be read. -/
theorem claim_C10_tally_invariant (data_path : String) (entries : List FileEntry) :
    sumCounts ((analyze_existing_data data_path true entries).file_types) =
      (analyze_existing_data data_path true entries).total_files := by
  show sumCounts ((entries.foldl stepFile ⟨0, [], []⟩).file_types) =
    (entries.foldl stepFile ⟨0, [], []⟩).total_files
  rw [foldl_stepFile_sumCounts, foldl_stepFile_total]
  simp [sumCounts]

/-- C6: a visited regular file with readable size lands in the large-files
list exactly when its size in megabytes (bytes / 1,048,576) exceeds 100,
each record carrying the path and that size rounded to two decimals; and a
non-empty large-files list forces the oversized-files recommendation. -/
theorem claim_C6_large_files (data_path : String) (entries : List FileEntry) :
    (∀ e ∈ entries, e.isFile = true → ∀ sz : Nat, e.size = some sz →
      100 < (sz : ℚ) / (1024 * 1024) →
      LargeFile.mk e.path (round2 ((sz : ℚ) / (1024 * 1024))) ∈
        (analyze_existing_data data_path true entries).large_files) ∧
    (∀ lf ∈ (analyze_existing_data data_path true entries).large_files,
      ∃ e ∈ entries, e.isFile = true ∧ ∃ sz : Nat, e.size = some sz ∧
        100 < (sz : ℚ) / (1024 * 1024) ∧
        lf = LargeFile.mk e.path (round2 ((sz : ℚ) / (1024 * 1024)))) ∧
    ((analyze_existing_data data_path true entries).large_files ≠ [] →
      recLarge ∈ (analyze_existing_data data_path true entries).recommendations) := by
  have hlarge : (analyze_existing_data data_path true entries).large_files =
      entries.filterMap largeOf? := by
    show (entries.foldl stepFile ⟨0, [], []⟩).large_files = _
    rw [foldl_stepFile_large]
    simp
  refine ⟨?_, ?_, ?_⟩
  · intro e he hf sz hsz h100
    rw [hlarge]
    refine List.mem_filterMap.mpr ⟨e, he, ?_⟩
    unfold largeOf?
    rw [hf, hsz]
    simp [h100]
  · intro lf hlf
    rw [hlarge] at hlf
    rcases List.mem_filterMap.mp hlf with ⟨e, he, hsome⟩
    refine ⟨e, he, ?_⟩
    unfold largeOf? at hsome
    cases hf : e.isFile
    · rw [hf] at hsome; simp at hsome
    · refine ⟨rfl, ?_⟩
      rw [hf] at hsome
      cases hs : e.size
      · rw [hs] at hsome; simp at hsome
      · rename_i sz
        rw [hs] at hsome
        simp only [if_true] at hsome
        by_cases h100 : 100 < (sz : ℚ) / (1024 * 1024)
        · rw [if_pos h100] at hsome
          exact ⟨sz, rfl, h100, (Option.some_injective _ hsome).symm⟩
        · rw [if_neg h100] at hsome
          simp at hsome
  · intro hne
    show recLarge ∈ recommendationsOf (entries.foldl stepFile ⟨0, [], []⟩)
    unfold recommendationsOf
    have hpos : 0 < (entries.foldl stepFile ⟨0, [], []⟩).large_files.length := by
      rcases List.length_pos.mpr (show (entries.foldl stepFile ⟨0, [], []⟩).large_files ≠ []
        from hne) with h
      exact h
    refine List.mem_append.mpr (Or.inl (List.mem_append.mpr (Or.inr ?_)))
    rw [if_pos hpos]
    exact List.mem_singleton.mpr rfl

/-- Witness for C6: a single 150 MB file (157,286,400 bytes). -/
theorem claim_C6_large_files_witness :
    LargeFile.mk "/data/big.bin" (round2 ((157286400 : ℚ) / (1024 * 1024))) ∈
      (analyze_existing_data "/data" true
        [⟨"/data/big.bin", "big.bin", true, some 157286400⟩]).large_files :=
  (claim_C6_large_files "/data" [⟨"/data/big.bin", "big.bin", true, some 157286400⟩]).1
    ⟨"/data/big.bin", "big.bin", true, some 157286400⟩ (by simp) rfl
    157286400 rfl (by norm_num)

/-- C1 counterexample: the combined images+videos+audio extension list of
the source has 18 extensions, not the 14 the claim asserts. -/
theorem claim_C1_counterexample :
    (ftmGet "images" ++ ftmGet "videos" ++ ftmGet "audio").length = 18 ∧
      ¬(ftmGet "images" ++ ftmGet "videos" ++ ftmGet "audio").length = 14 := by
  constructor <;> decide

/-- C1 (amended: the 'images'+'videos'+'audio' categories combine to 18
extensions, not 14): on a successful analysis the recommendations are
derived by exactly three rules in order, each appending zero or one
string — project-based when docCount (over the six document extensions)
beats mediaCount (over the 18 media extensions), type-based when
mediaCount wins, hybrid on the tie including zero/zero; then the
large-files rule; then date-based organization when the total exceeds
1000, possibly coexisting with rule 1's output. -/
theorem claim_C1_recommendation_rules (data_path : String) (entries : List FileEntry) :
    ∃ docCount mediaCount : Nat,
      docCount = ([".pdf", ".doc", ".docx", ".txt", ".rtf", ".odt"].map
          (fun ext => getCount (analyze_existing_data data_path true entries).file_types ext)).sum ∧
      mediaCount = ([".jpg", ".jpeg", ".png", ".gif", ".bmp", ".tiff", ".svg",
          ".mp4", ".avi", ".mov", ".wmv", ".flv", ".mkv",
          ".mp3", ".wav", ".flac", ".aac", ".ogg"].map
          (fun ext => getCount (analyze_existing_data data_path true entries).file_types ext)).sum ∧
      (analyze_existing_data data_path true entries).recommendations =
        (if mediaCount < docCount then [recProject]
          else if docCount < mediaCount then [recType]
          else [recHybrid])
        ++ (if 0 < (analyze_existing_data data_path true entries).large_files.length
            then [recLarge] else [])
        ++ (if 1000 < (analyze_existing_data data_path true entries).total_files
            then [recDate] else []) := by
  exact ⟨_, _, rfl, rfl, rfl⟩

/-- C8 counterexample: the dotfile name ".bashrc" contains a '.', so the
claim tallies it under ".bashrc", but `Path.suffix` gives the empty
string and the code tallies it under the empty-string key. -/
theorem claim_C8_counterexample :
    (analyze_existing_data "/d" true
        [⟨"/d/.bashrc", ".bashrc", true, none⟩]).file_types = [("", 1)] ∧
      pyLower (claimSuffix ".bashrc") = ".bashrc" ∧
      getCount (analyze_existing_data "/d" true
        [⟨"/d/.bashrc", ".bashrc", true, none⟩]).file_types ".bashrc" = 0 := by
  refine ⟨?_, ?_, ?_⟩ <;> decide

/-- C8 (amended: the tally key is the lowercased CPython `Path.suffix` —
the substring from the last '.' onward only when that dot is neither the
first nor the last character of the name, and the empty string otherwise,
so extensionless names, dotfiles and names ending in '.' all count under
the empty-string key): each key's tally counts exactly the regular files
whose lowercased suffix equals the key. -/
theorem claim_C8_suffix_tally (data_path : String) (entries : List FileEntry)
    (s : String) :
    getCount ((analyze_existing_data data_path true entries).file_types) s =
      (entries.filter
        (fun e => e.isFile && (pyLower (pathSuffix e.name) == s))).length := by
  show getCount ((entries.foldl stepFile ⟨0, [], []⟩).file_types) s = _
  rw [foldl_stepFile_getCount]
  simp [getCount]

/-- C7: a non-dry materialization (a) never overwrites any existing
file's contents — in particular existing `README.md` markers; (b) run a
second time from the state the first produced, it changes nothing and
returns the same path list (same folder set); (c) leaves a `README.md`
marker present in every folder it visited; and (d) whenever a visited
node's marker path was absent beforehand and no earlier node's write or
directory creation hits that path, the marker afterwards holds exactly
the one-line description derived from the folder name (underscores to
spaces, lowercased). -/
theorem claim_C7_readme_markers (base_path : String) (t : Tmpl) (fs : FS) :
    (∀ q c : String, fs.lookupFile q = some c →
      (create_folder_structure base_path t false fs).1.lookupFile q = some c) ∧
    (create_folder_structure base_path t false
        (create_folder_structure base_path t false fs).1 =
      ((create_folder_structure base_path t false fs).1,
        (t.nodesFrom base_path).map Prod.fst)) ∧
    (∀ pn ∈ t.nodesFrom base_path,
      (create_folder_structure base_path t false fs).1.pathExists
        (pn.1 ++ "/README.md") = true) ∧
    (∀ (ns1 : List (String × String)) (p n : String) (ns2 : List (String × String)),
      t.nodesFrom base_path = ns1 ++ (p, n) :: ns2 →
      fs.lookupFile (p ++ "/README.md") = none →
      (p ++ "/README.md") ∉ fs.dirs →
      (∀ pn' ∈ ns1, pn'.1 ++ "/README.md" ≠ p ++ "/README.md") →
      (∀ pn' ∈ ns1, (p ++ "/README.md") ∉ slashPrefixes pn'.1) →
      (create_folder_structure base_path t false fs).1.lookupFile
        (p ++ "/README.md") = some (readmeContent n)) := by
  have hwet : (create_folder_structure base_path t false fs).1 =
      (t.nodesFrom base_path).foldl stepNode fs := createRecT_fst_wet t base_path fs
  refine ⟨?_, ?_, ?_, ?_⟩
  · intro q c hq
    rw [hwet]
    exact foldl_stepNode_lookup_some _ fs q c hq
  · have hdone : ∀ pn ∈ t.nodesFrom base_path,
        nodeDone ((create_folder_structure base_path t false fs).1) pn := by
      rw [hwet]
      intro pn hpn
      exact foldl_nodeDone _ fs pn hpn
    have hfst : (create_folder_structure base_path t false
        (create_folder_structure base_path t false fs).1).1 =
        (create_folder_structure base_path t false fs).1 := by
      rw [show (create_folder_structure base_path t false
          (create_folder_structure base_path t false fs).1).1 =
          (t.nodesFrom base_path).foldl stepNode
            ((create_folder_structure base_path t false fs).1) from
          createRecT_fst_wet t base_path _]
      exact foldl_stepNode_id _ _ hdone
    have hsnd := createRecT_snd false t base_path
      ((create_folder_structure base_path t false fs).1)
    exact Prod.ext hfst hsnd
  · intro pn hpn
    rw [hwet]
    exact (foldl_nodeDone _ fs pn hpn).2
  · intro ns1 p n ns2 hdecomp h1 h2 h4 h5
    rw [hwet, hdecomp]
    exact foldl_stepNode_write_content ns1 fs p n ns2 h1 h2 h4 h5

/-- Witness for C7: one-folder template "Docs" under base "/b", starting
from a filesystem holding one unrelated file. -/
theorem claim_C7_readme_markers_witness :
    (create_folder_structure "/b" (.cons "Docs" .leaf .nil) false
        ⟨[], [("/keep.txt", "orig")]⟩).1.lookupFile "/keep.txt" = some "orig" ∧
    (create_folder_structure "/b" (.cons "Docs" .leaf .nil) false
        ⟨[], [("/keep.txt", "orig")]⟩).1.lookupFile ("/b/Docs" ++ "/README.md") =
      some (readmeContent "Docs") :=
  ⟨(claim_C7_readme_markers "/b" (.cons "Docs" .leaf .nil)
      ⟨[], [("/keep.txt", "orig")]⟩).1 "/keep.txt" "orig" (by decide),
   (claim_C7_readme_markers "/b" (.cons "Docs" .leaf .nil)
      ⟨[], [("/keep.txt", "orig")]⟩).2.2.2 [] "/b/Docs" "Docs" [] (by decide)
      (by decide) (by decide) (by simp) (by simp)⟩
